import Mathlib

/-!
Verification of the cert-manager VirtualServer shim controller
(`internal/certmanager/helper.go` and the reconciliation file containing
`SyncFnFor` / `buildCertificates` / `issuerForIngressLike`).

The Go code is shallowly embedded: structures mirror the Kubernetes /
cert-manager resource fields that the code reads or writes, maps become
association lists observed only through lookup (lookup returns the most
recent insertion, matching Go map overwrite semantics), and fallible Go
functions return `Except`.  Store and event side effects of the sync
function are made explicit as returned operation and event lists.
-/

set_option autoImplicit false

namespace CertShim

/-! ## Annotation maps

Go `map[string]string`, observed only via indexing.  `annInsert` prepends,
and `annLookup` returns the most recently inserted binding for a key, so
insert-then-lookup behaves exactly like Go map assignment/overwrite. -/

def AnnMap : Type := List (String × String)

def annLookup : AnnMap → String → Option String
  | [], _ => none
  | (k, v) :: rest, key => if k == key then some v else annLookup rest key

def annInsert (m : AnnMap) (k v : String) : AnnMap := (k, v) :: m

/-! ## Annotation keys and issuer kinds (cert-manager `cmapi` constants) -/

def cmCommonNameAnnKey : String := "cert-manager.io/common-name"
def cmDurationAnnKey : String := "cert-manager.io/duration"
def cmRenewBeforeAnnKey : String := "cert-manager.io/renew-before"
def cmUsagesAnnKey : String := "cert-manager.io/usages"
def cmIssuerAnnKey : String := "cert-manager.io/issuer"
def cmClusterIssuerAnnKey : String := "cert-manager.io/cluster-issuer"
def cmIssuerKindAnnKey : String := "cert-manager.io/issuer-kind"
def cmIssuerGroupAnnKey : String := "cert-manager.io/issuer-group"

def issuerKindName : String := "Issuer"
def clusterIssuerKindName : String := "ClusterIssuer"

/-! ## Data model

`CertManagerCfg` is the VirtualServer's `spec.tls.cert-manager` block.  Its
Go type declaration (`vsapi.CertManager`) is not part of the analysed
sources; modelled from the spec: an optional structured block with fields
commonName, duration, renewBefore, usages, issuer, clusterIssuer,
issuerKind, issuerGroup, each independently optional.  Absence of the
block is modelled as the all-empty record, matching the translators which
treat an empty string field as "not set". -/

structure CertManagerCfg where
  commonName : String := ""
  duration : String := ""
  renewBefore : String := ""
  usages : String := ""
  issuer : String := ""
  clusterIssuer : String := ""
  issuerKind : String := ""
  issuerGroup : String := ""
deriving DecidableEq

structure TLSBlock where
  secret : String := ""
  certManager : CertManagerCfg := {}
deriving DecidableEq

structure VsSpec where
  host : String := ""
  tls : TLSBlock := {}
deriving DecidableEq

structure VirtualServer where
  namespace_ : String := ""
  name : String := ""
  uid : String := ""
  labels : List (String × String) := []
  spec : VsSpec := {}
deriving DecidableEq

/-- Go `metav1.OwnerReference`, restricted to the fields this code reads. -/
structure OwnerReference where
  apiVersion : String := ""
  kind : String := ""
  name : String := ""
  uid : String := ""
  controller : Bool := false
  blockOwnerDeletion : Bool := false
deriving DecidableEq

/-- Go `cmmeta.ObjectReference` (a Certificate's issuerRef). -/
structure ObjectReference where
  name : String := ""
  kind : String := ""
  group : String := ""
deriving DecidableEq

/-- Go `cmapi.CertificateSpec`, restricted to the fields this code reads or
writes.  Durations are kept as signed nanosecond counts, the value
underlying Go's `time.Duration`. -/
structure CertificateSpec where
  commonName : String := ""
  duration : Option Int := none
  renewBefore : Option Int := none
  dnsNames : List String := []
  secretName : String := ""
  issuerRef : ObjectReference := {}
  usages : List String := []
deriving DecidableEq

/-- Go `cmapi.Certificate`: object metadata plus spec.  `resourceVersion`
stands for the metadata the update path must carry over unchanged from
the existing object. -/
structure Certificate where
  name : String := ""
  namespace_ : String := ""
  labels : List (String × String) := []
  ownerReferences : List OwnerReference := []
  resourceVersion : String := ""
  spec : CertificateSpec := {}
deriving DecidableEq

/-- Go `metav1.GetControllerOf`: the first owner reference flagged as
controller, if any. -/
def getControllerOf (refs : List OwnerReference) : Option OwnerReference :=
  refs.find? (fun r => r.controller)

/-- Go `metav1.IsControlledBy`: the controller owner reference exists and its
UID equals the candidate owner's UID. -/
def isControlledBy (crt : Certificate) (vs : VirtualServer) : Bool :=
  match getControllerOf crt.ownerReferences with
  | some ref => ref.uid == vs.uid
  | none => false

/-- Go `vsapi.SchemeGroupVersion.WithKind("VirtualServer")` rendered as an
apiVersion string. -/
def vsApiVersion : String := "k8s.nginx.org/v1"

/-- Go `metav1.NewControllerRef(vs, vsGVK)`. -/
def newControllerRef (vs : VirtualServer) : OwnerReference :=
  { apiVersion := vsApiVersion, kind := "VirtualServer", name := vs.name,
    uid := vs.uid, controller := true, blockOwnerDeletion := true }

/-- Go `cmapi.DefaultKeyUsages()`. -/
def defaultKeyUsages : List String := ["digital signature", "key encipherment"]

/-! ## Go `time.ParseDuration`

Modelled from the Go standard library: a signed sequence of
`(digits, optional fraction, unit)` groups; `"0"` alone is zero; any other
input must contain at least one group.  Integer arithmetic replaces Go's
float accumulation for fractional parts and the uint64 overflow checks are
omitted; neither difference is observable in any property proved below
(the claims only rely on which strings parse at all). -/

def unitNanos (u : String) : Option Int :=
  if u == "ns" then some 1
  else if u == "us" then some 1000
  else if u == "µs" then some 1000
  else if u == "μs" then some 1000
  else if u == "ms" then some 1000000
  else if u == "s" then some 1000000000
  else if u == "m" then some 60000000000
  else if u == "h" then some 3600000000000
  else none

def leadingIntAux : List Char → Nat → Nat × List Char
  | [], acc => (acc, [])
  | c :: rest, acc =>
    if c.isDigit then leadingIntAux rest (acc * 10 + (c.toNat - 48))
    else (acc, c :: rest)

def leadingFracAux : List Char → Nat → Nat → Nat × Nat × List Char
  | [], acc, scale => (acc, scale, [])
  | c :: rest, acc, scale =>
    if c.isDigit then leadingFracAux rest (acc * 10 + (c.toNat - 48)) (scale * 10)
    else (acc, scale, c :: rest)

def takeUnit : List Char → List Char × List Char
  | [] => ([], [])
  | c :: rest =>
    if c == '.' || c.isDigit then ([], c :: rest)
    else
      let (u, r) := takeUnit rest
      (c :: u, r)

def parseDurationLoop : Nat → List Char → Option Int
  | 0, _ => none
  | _ + 1, [] => some 0
  | fuel + 1, c :: s0 =>
    if ¬ (c == '.' || c.isDigit) then none
    else
      let s := c :: s0
      let (v, s1) := leadingIntAux s 0
      let pre : Bool := s1.length != s.length
      let (f, scale, s2, post) :=
        match s1 with
        | '.' :: rest =>
          let (f, sc, r) := leadingFracAux rest 0 1
          (f, sc, r, (r.length != rest.length : Bool))
        | other => (0, 1, other, false)
      if ¬ pre ∧ ¬ post then none
      else
        let (u, s3) := takeUnit s2
        if u.isEmpty then none
        else
          match unitNanos (String.mk u) with
          | none => none
          | some unit =>
            let term : Int := (v : Int) * unit + ((f : Int) * unit) / (scale : Int)
            match parseDurationLoop fuel s3 with
            | none => none
            | some rest => some (term + rest)

def parseGoDuration (str : String) : Option Int :=
  let s := str.data
  let (neg, s) :=
    match s with
    | '-' :: rest => (true, rest)
    | '+' :: rest => (false, rest)
    | other => (false, other)
  if s = ['0'] then some 0
  else if s = [] then none
  else
    match parseDurationLoop (s.length + 1) s with
    | some d => some (if neg then -d else d)
    | none => none

/-! ## Errors -/

/-- The error values produced by the shim's own logic: the nil-Certificate
guard, `errInvalidIngressAnnotation` wrapped with the offending key and
value, and the accumulated issuer-resolution `BadConfig` messages. -/
inductive ShimErr where
  | nilCertificate
  | invalidAnn (key : String) (detail : String)
  | badConfig (msgs : List String)
deriving DecidableEq

def goQuote (s : String) : String := "\"" ++ s ++ "\""

/-- The rendered Go error strings: `errNilCertificate`,
`fmt.Errorf("%w %q: %v", errInvalidIngressAnnotation, key, err)`, and
`errors.New(strings.Join(errs, ", "))`. -/
def shimErrMsg : ShimErr → String
  | .nilCertificate => "the supplied Certificate pointer was nil"
  | .invalidAnn key detail => "invalid ingress annotation " ++ goQuote key ++ ": " ++ detail
  | .badConfig msgs => String.intercalate ", " msgs

/-! ## Substring test (for "the error message names the key") -/

def strHasPre : List Char → List Char → Bool
  | _, [] => true
  | [], _ :: _ => false
  | h :: t, n :: m => h == n && strHasPre t m

def listHasSub (hay needle : List Char) : Bool :=
  match hay with
  | [] => needle.isEmpty
  | _ :: t => strHasPre hay needle || listHasSub t needle

def strHasSub (hay needle : String) : Bool := listHasSub hay.data needle.data

/-! ## Key usage token sets (`apiutil.KeyUsageType` / `apiutil.ExtKeyUsageType`) -/

def keyUsageStrings : List String :=
  ["signing", "digital signature", "content commitment", "key encipherment",
   "key agreement", "data encipherment", "cert sign", "crl sign",
   "encipher only", "decipher only"]

def extKeyUsageStrings : List String :=
  ["any", "server auth", "client auth", "code signing", "email protection",
   "s/mime", "ipsec end system", "ipsec tunnel", "ipsec user",
   "timestamping", "ocsp signing", "microsoft sgc", "netscape sgc"]

/-- Go `strings.Trim(s, " ")`: strip leading and trailing spaces only. -/
def trimSpaces (s : String) : String :=
  String.mk (((s.data.dropWhile (· == ' ')).reverse.dropWhile (· == ' ')).reverse)

/-! ## `translateAnnotations` (helper.go)

Decomposed into one helper per recognized annotation key, applied in the
Go source's order: common-name, duration, renew-before, usages. -/

def applyCommonNameAnn (crt : Certificate) (anns : AnnMap) : Certificate :=
  match annLookup anns cmCommonNameAnnKey with
  | some cn => { crt with spec := { crt.spec with commonName := cn } }
  | none => crt

def applyDurationAnn (crt : Certificate) (anns : AnnMap) : Except ShimErr Certificate :=
  match annLookup anns cmDurationAnnKey with
  | some d =>
    match parseGoDuration d with
    | some ns => .ok { crt with spec := { crt.spec with duration := some ns } }
    | none => .error (.invalidAnn cmDurationAnnKey d)
  | none => .ok crt

def applyRenewBeforeAnn (crt : Certificate) (anns : AnnMap) : Except ShimErr Certificate :=
  match annLookup anns cmRenewBeforeAnnKey with
  | some d =>
    match parseGoDuration d with
    | some ns => .ok { crt with spec := { crt.spec with renewBefore := some ns } }
    | none => .error (.invalidAnn cmRenewBeforeAnnKey d)
  | none => .ok crt

/-- The usages loop: split on commas, trim spaces, validate each token
against the known key-usage and extended-key-usage names; the error
carries the raw (untrimmed) offending entry, as in the Go message. -/
def collectUsages : List String → Except String (List String)
  | [] => .ok []
  | raw :: rest =>
    let u := trimSpaces raw
    if keyUsageStrings.contains u || extKeyUsageStrings.contains u then
      match collectUsages rest with
      | .ok us => .ok (u :: us)
      | .error e => .error e
    else .error raw

def applyUsagesAnn (crt : Certificate) (anns : AnnMap) : Except ShimErr Certificate :=
  match annLookup anns cmUsagesAnnKey with
  | some usages =>
    match collectUsages (usages.splitOn ",") with
    | .ok newUsages => .ok { crt with spec := { crt.spec with usages := newUsages } }
    | .error bad => .error (.invalidAnn cmUsagesAnnKey bad)
  | none => .ok crt

/-- Go `translateAnnotations(crt, ingLikeAnnotations)`: the nil guard comes
first, before any annotation key is examined; then the four keys are
applied in source order, the first failing key aborting the translation. -/
def translateAnnotations (crt? : Option Certificate) (anns : AnnMap) :
    Except ShimErr Certificate :=
  match crt? with
  | none => .error .nilCertificate
  | some crt0 =>
    match applyDurationAnn (applyCommonNameAnn crt0 anns) anns with
    | .error e => .error e
    | .ok crt1 =>
      match applyRenewBeforeAnn crt1 anns with
      | .error e => .error e
      | .ok crt2 => applyUsagesAnn crt2 anns

/-! ## `convertVsCmSpecToAnnotations` and the issuer annotation builders
(helper.go)

Transcribed exactly as written in the source, including the fact that the
`Duration`, `RenewBefore` and `Usages` branches all assign to
`cmapi.DurationAnnotationKey`. -/

def convertVsCmSpecToAnnotations (vsCmSpec : CertManagerCfg) : AnnMap :=
  let m : AnnMap := []
  let m := if vsCmSpec.commonName ≠ "" then annInsert m cmCommonNameAnnKey vsCmSpec.commonName else m
  let m := if vsCmSpec.duration ≠ "" then annInsert m cmDurationAnnKey vsCmSpec.duration else m
  let m := if vsCmSpec.renewBefore ≠ "" then annInsert m cmDurationAnnKey vsCmSpec.renewBefore else m
  let m := if vsCmSpec.usages ≠ "" then annInsert m cmDurationAnnKey vsCmSpec.usages else m
  m

def getVsCmSpecShimAnnotations (vsCmSpec : CertManagerCfg) : AnnMap :=
  let m : AnnMap := []
  let m := if vsCmSpec.clusterIssuer ≠ "" then annInsert m cmClusterIssuerAnnKey vsCmSpec.clusterIssuer else m
  let m := if vsCmSpec.issuer ≠ "" then annInsert m cmIssuerAnnKey vsCmSpec.issuer else m
  m

def getVsCmSpecIssuerAnnotations (vsCmSpec : CertManagerCfg) : AnnMap :=
  let m := getVsCmSpecShimAnnotations vsCmSpec
  let m := if vsCmSpec.issuerKind ≠ "" then annInsert m cmIssuerKindAnnKey vsCmSpec.issuerKind else m
  let m := if vsCmSpec.issuerGroup ≠ "" then annInsert m cmIssuerGroupAnnKey vsCmSpec.issuerGroup else m
  m

/-! ## `issuerForIngressLike` -/

/-- Go `controller.IngressShimOptions`, restricted to the default issuer
triple read here. -/
structure IngressShimOptions where
  defaultIssuerName : String := ""
  defaultIssuerKind : String := ""
  defaultIssuerGroup : String := ""
deriving DecidableEq

/-- Go `fmt.Sprintf("both %q and %q may not be set", k1, k2)`. -/
def msgBothSet (k1 k2 : String) : String :=
  "both " ++ goQuote k1 ++ " and " ++ goQuote k2 ++ " may not be set"

def msgNoIssuerName : String :=
  "failed to determine issuer name to be used for virtualserver resource"

def issuerForIngressLike (defaults : IngressShimOptions) (vs : VirtualServer) :
    Except ShimErr (String × String × String) :=
  let annotations := getVsCmSpecIssuerAnnotations vs.spec.tls.certManager
  let issuerName? := annLookup annotations cmIssuerAnnKey
  let clusterIssuerName? := annLookup annotations cmClusterIssuerAnnKey
  let kindName? := annLookup annotations cmIssuerKindAnnKey
  let groupName? := annLookup annotations cmIssuerGroupAnnKey
  let name := defaults.defaultIssuerName
  let kind := defaults.defaultIssuerKind
  let group := defaults.defaultIssuerGroup
  let (name, kind) :=
    match issuerName? with
    | some n => (n, issuerKindName)
    | none => (name, kind)
  let (name, kind) :=
    match clusterIssuerName? with
    | some n => (n, clusterIssuerKindName)
    | none => (name, kind)
  let kind := match kindName? with | some k => k | none => kind
  let group := match groupName? with | some g => g | none => group
  let errs : List String := []
  let errs := if name = "" then errs ++ [msgNoIssuerName] else errs
  let errs :=
    if issuerName?.isSome && clusterIssuerName?.isSome then
      errs ++ [msgBothSet cmIssuerAnnKey cmClusterIssuerAnnKey]
    else errs
  let errs :=
    if clusterIssuerName?.isSome && groupName?.isSome then
      errs ++ [msgBothSet cmClusterIssuerAnnKey cmIssuerGroupAnnKey]
    else errs
  let errs :=
    if clusterIssuerName?.isSome && kindName?.isSome then
      errs ++ [msgBothSet cmClusterIssuerAnnKey cmIssuerKindAnnKey]
    else errs
  if errs ≠ [] then .error (.badConfig errs) else .ok (name, kind, group)

/-! ## `certNeedsUpdate`

The field-level inequality check.  Go compares the label maps with
`reflect.DeepEqual`; here labels are association lists compared
structurally, which plays no role in any proved property because
`buildCertificates` discards this function's result. -/

def certNeedsUpdate (a b : Certificate) : Bool :=
  if a.name != b.name then true
  else if a.labels != b.labels then true
  else if a.spec.commonName != b.spec.commonName then true
  else if a.spec.dnsNames.length != b.spec.dnsNames.length then true
  else if (List.zip a.spec.dnsNames b.spec.dnsNames).any (fun p => p.1 != p.2) then true
  else if a.spec.secretName != b.spec.secretName then true
  else if a.spec.issuerRef.name != b.spec.issuerRef.name then true
  else if a.spec.issuerRef.kind != b.spec.issuerRef.kind then true
  else false

/-! ## `buildCertificates` -/

/-- The outcome of `cmLister.Certificates(ns).Get(secret)`: in Go the pair
`(crt, err)` is collapsed into three observable cases by the
`!IsNotFound(err) && err != nil` test. -/
inductive GetResult where
  | found (c : Certificate)
  | notFound
  | ioError (msg : String)
deriving DecidableEq

/-- Errors escaping `buildCertificates` and the sync function: either a
shim-logic error or a store/lister I/O error. -/
inductive SyncErr where
  | shim (e : ShimErr)
  | store (msg : String)
deriving DecidableEq

/-- The desired Certificate as assembled in `buildCertificates` before
annotation translation: name and secretName from the TLS secret, dnsNames
from the single host, labels copied from the VirtualServer, a controller
owner reference, and the default key usages. -/
def baseCert (vs : VirtualServer) (issuerName issuerKind issuerGroup : String) :
    Certificate :=
  { name := vs.spec.tls.secret,
    namespace_ := vs.namespace_,
    labels := vs.labels,
    ownerReferences := [newControllerRef vs],
    spec := { dnsNames := [vs.spec.host],
              secretName := vs.spec.tls.secret,
              issuerRef := { name := issuerName, kind := issuerKind, group := issuerGroup },
              usages := defaultKeyUsages } }

/-- The desired Certificate after running the config-to-annotation
conversion and the annotation translation, exactly as `buildCertificates`
composes them. -/
def desiredCert (vs : VirtualServer) (issuerName issuerKind issuerGroup : String) :
    Except ShimErr Certificate :=
  translateAnnotations (some (baseCert vs issuerName issuerKind issuerGroup))
    (convertVsCmSpecToAnnotations vs.spec.tls.certManager)

/-- Go `buildCertificates`, with the lister's answer passed in as
`getExisting` (Go performs the single Get itself; the read happens once,
before anything else, so passing its result is equivalent).  The
ownership checks and `certNeedsUpdate` are computed for logging only in
the source and do not influence the output; when an existing Certificate
was found the update candidate is its deep copy with spec and labels
overwritten by the desired ones. -/
def buildCertificates (getExisting : GetResult) (vs : VirtualServer)
    (issuerName issuerKind issuerGroup : String) :
    Except SyncErr (List Certificate × List Certificate) :=
  match getExisting with
  | .ioError m => .error (.store m)
  | .notFound =>
    match desiredCert vs issuerName issuerKind issuerGroup with
    | .error e => .error (.shim e)
    | .ok crt => .ok ([crt], [])
  | .found existingCrt =>
    match desiredCert vs issuerName issuerKind issuerGroup with
    | .error e => .error (.shim e)
    | .ok crt =>
      let _advisoryOwned := isControlledBy existingCrt vs
      let _advisoryDiff := certNeedsUpdate existingCrt crt
      .ok ([], [{ existingCrt with spec := crt.spec, labels := crt.labels }])

/-! ## Garbage collection -/

def secretNameUsedIn (secretName : String) (vs : VirtualServer) : Bool :=
  secretName == vs.spec.tls.secret

def findCertificatesToBeRemoved (certs : List Certificate) (vs : VirtualServer) :
    List String :=
  match certs with
  | [] => []
  | crt :: rest =>
    if ¬ isControlledBy crt vs then findCertificatesToBeRemoved rest vs
    else if ¬ secretNameUsedIn crt.spec.secretName vs then
      crt.name :: findCertificatesToBeRemoved rest vs
    else findCertificatesToBeRemoved rest vs

/-! ## The sync function (`SyncFnFor`)

The external store is a record of response functions; the pass's store
writes and emitted events are returned explicitly, together with the
error value handed back to the caller (`result = none` models
`return nil`). -/

structure Store where
  getCert : GetResult
  createRes : Certificate → Option String
  updateRes : Certificate → Option String
  listRes : Except String (List Certificate)
  deleteRes : String → Option String

inductive Op where
  | create (c : Certificate)
  | update (c : Certificate)
  | delete (name : String)
deriving DecidableEq

inductive Event where
  | warnBadConfig
  | createdCert (name : String)
  | updatedCert (name : String)
  | deletedCert (name : String)
deriving DecidableEq

structure SyncOutcome where
  ops : List Op
  events : List Event
  result : Option SyncErr
deriving DecidableEq

/-- The create loop: each Certificate is created in order; the first store
failure aborts the pass, returning the operations already performed. -/
def runCreates (store : Store) : List Certificate → List Op × List Event × Option String
  | [] => ([], [], none)
  | c :: rest =>
    match store.createRes c with
    | some msg => ([], [], some msg)
    | none =>
      let (ops, evs, err) := runCreates store rest
      (.create c :: ops, .createdCert c.name :: evs, err)

def runUpdates (store : Store) : List Certificate → List Op × List Event × Option String
  | [] => ([], [], none)
  | c :: rest =>
    match store.updateRes c with
    | some msg => ([], [], some msg)
    | none =>
      let (ops, evs, err) := runUpdates store rest
      (.update c :: ops, .updatedCert c.name :: evs, err)

def runDeletes (store : Store) : List String → List Op × List Event × Option String
  | [] => ([], [], none)
  | n :: rest =>
    match store.deleteRes n with
    | some msg => ([], [], some msg)
    | none =>
      let (ops, evs, err) := runDeletes store rest
      (.delete n :: ops, .deletedCert n :: evs, err)

/-- One reconciliation pass of the closure returned by `SyncFnFor`: issuer
resolution failure is logged, reported as a warning event and swallowed
(`return nil`); a `buildCertificates` failure is returned to the caller
before any store write; then creates, updates, the owned-certificate
listing, garbage collection and deletes run in order, each store failure
propagating immediately. -/
def syncFnFor (defaults : IngressShimOptions) (store : Store) (vs : VirtualServer) :
    SyncOutcome :=
  match issuerForIngressLike defaults vs with
  | .error _ => { ops := [], events := [.warnBadConfig], result := none }
  | .ok (issuerName, issuerKind, issuerGroup) =>
    match buildCertificates store.getCert vs issuerName issuerKind issuerGroup with
    | .error e => { ops := [], events := [], result := some e }
    | .ok (newCrts, updateCrts) =>
      let (cops, cevs, cerr) := runCreates store newCrts
      match cerr with
      | some m => { ops := cops, events := cevs, result := some (.store m) }
      | none =>
        let (uops, uevs, uerr) := runUpdates store updateCrts
        match uerr with
        | some m => { ops := cops ++ uops, events := cevs ++ uevs, result := some (.store m) }
        | none =>
          match store.listRes with
          | .error m =>
            { ops := cops ++ uops, events := cevs ++ uevs, result := some (.store m) }
          | .ok certs =>
            let unrequired := findCertificatesToBeRemoved certs vs
            let (dops, devs, derr) := runDeletes store unrequired
            { ops := cops ++ uops ++ dops, events := cevs ++ uevs ++ devs,
              result := derr.map .store }

/-! ## Change notification handlers

The work queue accepts untyped items (`interface{}`); an item is either a
plain namespace/name string key or a VirtualServer object, reflecting
what the two handlers actually pass to `queue.Add`. -/

inductive QueueItem where
  | strKey (s : String)
  | vsObj (vs : VirtualServer)
deriving DecidableEq

/-- Go `certificateHandler`: resolve the Certificate's controller owner; bail
out with no enqueue when there is none or its kind is not VirtualServer;
otherwise enqueue `crt.Namespace + "/" + ref.Name`. -/
def certificateHandler (crt : Certificate) : Option QueueItem :=
  match getControllerOf crt.ownerReferences with
  | none => none
  | some ref =>
    if ref.kind != "VirtualServer" then none
    else some (.strKey (crt.namespace_ ++ "/" ++ ref.name))

/-- The `AddFunc` of `createVirtualServerHandlers`: `queue.Add(vs)` — the
object itself is enqueued. -/
def vsAddHandler (vs : VirtualServer) : Option QueueItem :=
  some (.vsObj vs)

/-- The `DeleteFunc`, after the tombstone unwrapping that is outside this
data model: `queue.Add(vs)`. -/
def vsDeleteHandler (vs : VirtualServer) : Option QueueItem :=
  some (.vsObj vs)

/-- The `UpdateFunc`: enqueue the current object only when the
`spec.tls.cert-manager` blocks of the old and new versions differ
structurally (`reflect.DeepEqual`). -/
def vsUpdateHandler (old cur : VirtualServer) : Option QueueItem :=
  if old.spec.tls.certManager ≠ cur.spec.tls.certManager then some (.vsObj cur)
  else none

/-! ## Concrete fixtures shared by the concrete theorems -/

/-- The end-to-end example's defaults: issuer "letsencrypt", kind
"ClusterIssuer", empty group. -/
def exampleDefaults : IngressShimOptions :=
  { defaultIssuerName := "letsencrypt", defaultIssuerKind := "ClusterIssuer",
    defaultIssuerGroup := "" }

/-- A store with no existing Certificate and no I/O failures. -/
def happyStore : Store :=
  { getCert := .notFound, createRes := fun _ => none, updateRes := fun _ => none,
    listRes := .ok [], deleteRes := fun _ => none }

/-- The end-to-end example's VirtualServer: namespace "default", name
"vs1", host "example.com", TLS secret "example-tls", no cert-manager
config block. -/
def exampleVs : VirtualServer :=
  { namespace_ := "default", name := "vs1", uid := "uid-vs1",
    spec := { host := "example.com", tls := { secret := "example-tls" } } }

/-- Variant of `exampleVs` with a cert-manager config whose duration is unparsable. -/
def bogusDurationVs : VirtualServer :=
  { exampleVs with spec := { exampleVs.spec with
      tls := { exampleVs.spec.tls with certManager := { duration := "bogus" } } } }

/-- Variant of `exampleVs` with a cert-manager config that only sets usages. -/
def usagesVs : VirtualServer :=
  { exampleVs with spec := { exampleVs.spec with
      tls := { exampleVs.spec.tls with
        certManager := { usages := "digital signature, key encipherment" } } } }

/-- The Certificate the end-to-end example is expected to create. -/
def exampleCert : Certificate :=
  baseCert exampleVs "letsencrypt" "ClusterIssuer" ""

/-- An existing Certificate all of whose compared fields equal the desired
one for `exampleVs`, so that `certNeedsUpdate` reports no difference. -/
def identicalExistingCert : Certificate :=
  { exampleCert with resourceVersion := "42" }

/-- Variant of `exampleVs` with a cert-manager config setting both an issuer and a
clusterIssuer override. -/
def conflictVs : VirtualServer :=
  { exampleVs with spec := { exampleVs.spec with
      tls := { exampleVs.spec.tls with certManager :=
        { issuer := "my-issuer", clusterIssuer := "my-cluster-issuer" } } } }

/-! ## Theorems -/

/-- Claim C10: applying the annotation translation to a nil Certificate
pointer returns the error "the supplied Certificate pointer was nil" for
every annotation map — the guard fires before any annotation key is
examined, so the result does not depend on the map at all. -/
theorem translateAnnotations_nil_guard (anns : AnnMap) :
    translateAnnotations none anns = .error ShimErr.nilCertificate
      ∧ shimErrMsg ShimErr.nilCertificate = "the supplied Certificate pointer was nil" :=
  ⟨rfl, rfl⟩

/-- Claim C1 (code bug): `convertVsCmSpecToAnnotations` files the
renewBefore and usages fields under the duration annotation key.  With
only renewBefore = "1440h" set, the duration key carries "1440h" and the
renew-before key is absent; with only usages set, the usages key is
absent and the duration key carries the usages string — contradicting the
claim (and the function's own doc comment), which demand one distinct
key per non-empty field. -/
theorem convert_misfiles_renewBefore_and_usages :
    annLookup (convertVsCmSpecToAnnotations { renewBefore := "1440h" })
        cmDurationAnnKey = some "1440h"
      ∧ annLookup (convertVsCmSpecToAnnotations { renewBefore := "1440h" })
          cmRenewBeforeAnnKey = none
      ∧ annLookup (convertVsCmSpecToAnnotations { usages := "digital signature" })
          cmUsagesAnnKey = none
      ∧ annLookup (convertVsCmSpecToAnnotations { usages := "digital signature" })
          cmDurationAnnKey = some "digital signature" :=
  ⟨rfl, rfl, rfl, rfl⟩

/-- Claim C5 (code bug): with no existing Certificate and a config block
that only sets usages, the claim demands one create candidate whose
usages are the configured override; instead the conversion files the
usages string under the duration annotation key (leaving the usages key
unset), duration parsing fails on it, and the build returns an
InvalidAnnotation error producing no create candidate at all. -/
theorem usages_config_breaks_build :
    annLookup (convertVsCmSpecToAnnotations
        { usages := "digital signature, key encipherment" }) cmUsagesAnnKey = none
      ∧ buildCertificates .notFound usagesVs "letsencrypt" "ClusterIssuer" ""
          = .error (.shim (.invalidAnn cmDurationAnnKey
              "digital signature, key encipherment")) :=
  ⟨rfl, rfl⟩

/-- Claim C2: for the example VirtualServer (namespace "default", name
"vs1", host "example.com", TLS secret "example-tls", no cert-manager
config) with defaults letsencrypt/ClusterIssuer and no existing
Certificate, one reconciliation pass performs exactly one store
operation: the creation of a Certificate named "example-tls" with
dnsNames ["example.com"] and issuerRef letsencrypt/ClusterIssuer; the
pass returns no error. -/
theorem sync_end_to_end_single_create :
    (syncFnFor exampleDefaults happyStore exampleVs).ops = [Op.create exampleCert]
      ∧ exampleCert.name = "example-tls"
      ∧ exampleCert.spec.dnsNames = ["example.com"]
      ∧ exampleCert.spec.issuerRef.name = "letsencrypt"
      ∧ exampleCert.spec.issuerRef.kind = "ClusterIssuer"
      ∧ (syncFnFor exampleDefaults happyStore exampleVs).result = none :=
  ⟨rfl, rfl, rfl, rfl, rfl, rfl⟩

/-- Claim C9 (code bug): on a VirtualServer add notification the handler
passes the VirtualServer object itself to `queue.Add`, not the
namespace/name string key "default/vs1" that the claim (and
`ProcessItem`, which parses the queued item with
`SplitMetaNamespaceKey`) requires; the queued item is not a string key at
all. -/
theorem vs_add_handler_enqueues_object_not_key :
    vsAddHandler exampleVs = some (QueueItem.vsObj exampleVs)
      ∧ (∀ s : String, QueueItem.vsObj exampleVs ≠ QueueItem.strKey s) :=
  ⟨rfl, fun _ h => QueueItem.noConfusion h⟩

/-- Claim C6: a name is in the garbage collector's removable list exactly
when some listed Certificate bears it, is controller-owned by the
VirtualServer, and has a secret name different from the VirtualServer's
declared TLS secret; in particular certificates not controller-owned by
the VirtualServer never appear, whatever their secret name. -/
theorem gc_removable_iff (certs : List Certificate) (vs : VirtualServer) (name : String) :
    name ∈ findCertificatesToBeRemoved certs vs ↔
      ∃ crt, crt ∈ certs ∧ crt.name = name ∧ isControlledBy crt vs = true
        ∧ secretNameUsedIn crt.spec.secretName vs = false := by
  induction certs with
  | nil => simp [findCertificatesToBeRemoved]
  | cons crt rest ih =>
    simp only [findCertificatesToBeRemoved]
    by_cases hc : isControlledBy crt vs = true
    · by_cases hs : secretNameUsedIn crt.spec.secretName vs = true
      · rw [if_neg (not_not_intro hc), if_neg (not_not_intro hs), ih]
        constructor
        · rintro ⟨c, hmem, hn, hctl, hsec⟩
          exact ⟨c, List.mem_cons_of_mem _ hmem, hn, hctl, hsec⟩
        · rintro ⟨c, hmem, hn, hctl, hsec⟩
          rcases List.mem_cons.mp hmem with rfl | hmem
          · rw [hs] at hsec; cases hsec
          · exact ⟨c, hmem, hn, hctl, hsec⟩
      · rw [if_neg (not_not_intro hc), if_pos hs, List.mem_cons, ih]
        constructor
        · rintro (rfl | ⟨c, hmem, hn, hctl, hsec⟩)
          · exact ⟨crt, List.mem_cons_self crt rest, rfl, hc, by simpa using hs⟩
          · exact ⟨c, List.mem_cons_of_mem _ hmem, hn, hctl, hsec⟩
        · rintro ⟨c, hmem, hn, hctl, hsec⟩
          rcases List.mem_cons.mp hmem with rfl | hmem
          · exact Or.inl hn.symm
          · exact Or.inr ⟨c, hmem, hn, hctl, hsec⟩
    · rw [if_pos hc, ih]
      constructor
      · rintro ⟨c, hmem, hn, hctl, hsec⟩
        exact ⟨c, List.mem_cons_of_mem _ hmem, hn, hctl, hsec⟩
      · rintro ⟨c, hmem, hn, hctl, hsec⟩
        rcases List.mem_cons.mp hmem with rfl | hmem
        · exact absurd hctl hc
        · exact ⟨c, hmem, hn, hctl, hsec⟩

/-- Claim C8: the certificate change handler enqueues an item exactly when
the Certificate has a controller owner reference of kind VirtualServer,
and that item is the string key `namespace + "/" + owner name`; with no
controller owner, or an owner of another kind, nothing is enqueued. -/
theorem certificateHandler_enqueue_iff (crt : Certificate) (q : QueueItem) :
    certificateHandler crt = some q ↔
      ∃ ref, getControllerOf crt.ownerReferences = some ref
        ∧ ref.kind = "VirtualServer"
        ∧ q = .strKey (crt.namespace_ ++ "/" ++ ref.name) := by
  unfold certificateHandler
  cases h : getControllerOf crt.ownerReferences with
  | none => simp
  | some ref =>
    by_cases hk : ref.kind = "VirtualServer"
    · simp [hk, eq_comm]
    · simp [bne_iff_ne, hk]

/-- Claim C4: whenever the lister finds an existing Certificate for the
TLS secret and the desired Certificate translates successfully, the
builder emits no create candidate and exactly one update candidate — the
existing object with only its spec and labels overwritten by the desired
ones.  Both the ownership check and the `certNeedsUpdate` field
comparison are computed but cannot suppress the update: the conclusion
holds for every existing Certificate, including one whose compared
fields all equal the desired ones. -/
theorem existing_cert_always_updated (vs : VirtualServer) (existing : Certificate)
    (issuerName issuerKind issuerGroup : String) (crt : Certificate)
    (h : desiredCert vs issuerName issuerKind issuerGroup = .ok crt) :
    buildCertificates (.found existing) vs issuerName issuerKind issuerGroup
      = .ok ([], [{ existing with spec := crt.spec, labels := crt.labels }]) := by
  unfold buildCertificates
  rw [h]

/-! Lookup characterization of the issuer annotation map: each of the four
issuer-related config fields lands under its own key exactly when it is
non-empty. -/

theorem lookup_issuer_ann (cfg : CertManagerCfg) :
    annLookup (getVsCmSpecIssuerAnnotations cfg) cmIssuerAnnKey =
      if cfg.issuer = "" then none else some cfg.issuer := by
  simp only [getVsCmSpecIssuerAnnotations, getVsCmSpecShimAnnotations, annInsert]
  split_ifs <;> first | rfl | simp_all

theorem lookup_cluster_issuer_ann (cfg : CertManagerCfg) :
    annLookup (getVsCmSpecIssuerAnnotations cfg) cmClusterIssuerAnnKey =
      if cfg.clusterIssuer = "" then none else some cfg.clusterIssuer := by
  simp only [getVsCmSpecIssuerAnnotations, getVsCmSpecShimAnnotations, annInsert]
  split_ifs <;> first | rfl | simp_all

theorem lookup_issuer_kind_ann (cfg : CertManagerCfg) :
    annLookup (getVsCmSpecIssuerAnnotations cfg) cmIssuerKindAnnKey =
      if cfg.issuerKind = "" then none else some cfg.issuerKind := by
  simp only [getVsCmSpecIssuerAnnotations, getVsCmSpecShimAnnotations, annInsert]
  split_ifs <;> first | rfl | simp_all

theorem lookup_issuer_group_ann (cfg : CertManagerCfg) :
    annLookup (getVsCmSpecIssuerAnnotations cfg) cmIssuerGroupAnnKey =
      if cfg.issuerGroup = "" then none else some cfg.issuerGroup := by
  simp only [getVsCmSpecIssuerAnnotations, getVsCmSpecShimAnnotations, annInsert]
  split_ifs <;> first | rfl | simp_all

/-- Claim C3: whenever a VirtualServer's cert-manager config sets both an
issuer and a clusterIssuer override, issuer resolution returns the
accumulated BadConfig error, among whose messages is the conflict
message, and that message names both the issuer annotation key and the
cluster-issuer annotation key. -/
theorem issuer_conflict_badConfig (defaults : IngressShimOptions) (vs : VirtualServer)
    (h1 : vs.spec.tls.certManager.issuer ≠ "")
    (h2 : vs.spec.tls.certManager.clusterIssuer ≠ "") :
    ∃ errs, issuerForIngressLike defaults vs = .error (.badConfig errs)
      ∧ msgBothSet cmIssuerAnnKey cmClusterIssuerAnnKey ∈ errs
      ∧ strHasSub (msgBothSet cmIssuerAnnKey cmClusterIssuerAnnKey) cmIssuerAnnKey = true
      ∧ strHasSub (msgBothSet cmIssuerAnnKey cmClusterIssuerAnnKey) cmClusterIssuerAnnKey
          = true := by
  have L1 := lookup_issuer_ann vs.spec.tls.certManager
  have L2 := lookup_cluster_issuer_ann vs.spec.tls.certManager
  have L3 := lookup_issuer_kind_ann vs.spec.tls.certManager
  have L4 := lookup_issuer_group_ann vs.spec.tls.certManager
  rw [if_neg h1] at L1
  rw [if_neg h2] at L2
  by_cases hk : vs.spec.tls.certManager.issuerKind = ""
  · rw [if_pos hk] at L3
    by_cases hg : vs.spec.tls.certManager.issuerGroup = ""
    · rw [if_pos hg] at L4
      refine ⟨[msgBothSet cmIssuerAnnKey cmClusterIssuerAnnKey],
        ?_, by simp, by decide, by decide⟩
      simp [issuerForIngressLike, L1, L2, L3, L4, h2]
    · rw [if_neg hg] at L4
      refine ⟨[msgBothSet cmIssuerAnnKey cmClusterIssuerAnnKey,
        msgBothSet cmClusterIssuerAnnKey cmIssuerGroupAnnKey],
        ?_, by simp, by decide, by decide⟩
      simp [issuerForIngressLike, L1, L2, L3, L4, h2]
  · rw [if_neg hk] at L3
    by_cases hg : vs.spec.tls.certManager.issuerGroup = ""
    · rw [if_pos hg] at L4
      refine ⟨[msgBothSet cmIssuerAnnKey cmClusterIssuerAnnKey,
        msgBothSet cmClusterIssuerAnnKey cmIssuerKindAnnKey],
        ?_, by simp, by decide, by decide⟩
      simp [issuerForIngressLike, L1, L2, L3, L4, h2]
    · rw [if_neg hg] at L4
      refine ⟨[msgBothSet cmIssuerAnnKey cmClusterIssuerAnnKey,
        msgBothSet cmClusterIssuerAnnKey cmIssuerGroupAnnKey,
        msgBothSet cmClusterIssuerAnnKey cmIssuerKindAnnKey],
        ?_, by simp, by decide, by decide⟩
      simp [issuerForIngressLike, L1, L2, L3, L4, h2]

theorem issuer_conflict_badConfig_witness :
    conflictVs.spec.tls.certManager.issuer ≠ ""
      ∧ conflictVs.spec.tls.certManager.clusterIssuer ≠ ""
      ∧ (∃ errs,
          issuerForIngressLike exampleDefaults conflictVs = .error (.badConfig errs)
          ∧ msgBothSet cmIssuerAnnKey cmClusterIssuerAnnKey ∈ errs
          ∧ strHasSub (msgBothSet cmIssuerAnnKey cmClusterIssuerAnnKey) cmIssuerAnnKey
              = true
          ∧ strHasSub (msgBothSet cmIssuerAnnKey cmClusterIssuerAnnKey)
              cmClusterIssuerAnnKey = true) :=
  ⟨by decide, by decide,
    issuer_conflict_badConfig exampleDefaults conflictVs (by decide) (by decide)⟩

theorem existing_cert_always_updated_witness :
    desiredCert exampleVs "letsencrypt" "ClusterIssuer" "" = .ok exampleCert
      ∧ certNeedsUpdate identicalExistingCert exampleCert = false
      ∧ buildCertificates (.found identicalExistingCert) exampleVs
          "letsencrypt" "ClusterIssuer" ""
        = .ok ([], [{ identicalExistingCert with
            spec := exampleCert.spec, labels := exampleCert.labels }]) :=
  ⟨rfl, rfl,
    existing_cert_always_updated exampleVs identicalExistingCert
      "letsencrypt" "ClusterIssuer" "" exampleCert rfl⟩

/-! Error-shape lemmas: the only errors `translateAnnotations` can produce
on a non-nil Certificate are InvalidAnnotation errors, and the only shim
errors escaping `buildCertificates` come from that translation. -/

theorem applyDurationAnn_error (crt : Certificate) (anns : AnnMap) (e : ShimErr)
    (h : applyDurationAnn crt anns = .error e) :
    ∃ v, e = ShimErr.invalidAnn cmDurationAnnKey v := by
  unfold applyDurationAnn at h
  cases hl : annLookup anns cmDurationAnnKey with
  | none => simp [hl] at h
  | some d =>
    simp only [hl] at h
    cases hp : parseGoDuration d with
    | some ns => simp [hp] at h
    | none =>
      simp only [hp, Except.error.injEq] at h
      exact ⟨d, h.symm⟩

theorem applyRenewBeforeAnn_error (crt : Certificate) (anns : AnnMap) (e : ShimErr)
    (h : applyRenewBeforeAnn crt anns = .error e) :
    ∃ v, e = ShimErr.invalidAnn cmRenewBeforeAnnKey v := by
  unfold applyRenewBeforeAnn at h
  cases hl : annLookup anns cmRenewBeforeAnnKey with
  | none => simp [hl] at h
  | some d =>
    simp only [hl] at h
    cases hp : parseGoDuration d with
    | some ns => simp [hp] at h
    | none =>
      simp only [hp, Except.error.injEq] at h
      exact ⟨d, h.symm⟩

theorem applyUsagesAnn_error (crt : Certificate) (anns : AnnMap) (e : ShimErr)
    (h : applyUsagesAnn crt anns = .error e) :
    ∃ v, e = ShimErr.invalidAnn cmUsagesAnnKey v := by
  unfold applyUsagesAnn at h
  cases hl : annLookup anns cmUsagesAnnKey with
  | none => simp [hl] at h
  | some us =>
    simp only [hl] at h
    cases hu : collectUsages (us.splitOn ",") with
    | ok newUsages => simp [hu] at h
    | error bad =>
      simp only [hu, Except.error.injEq] at h
      exact ⟨bad, h.symm⟩

theorem translateAnnotations_some_error (crt : Certificate) (anns : AnnMap)
    (e : ShimErr) (h : translateAnnotations (some crt) anns = .error e) :
    ∃ key v, e = ShimErr.invalidAnn key v := by
  unfold translateAnnotations at h
  cases hD : applyDurationAnn (applyCommonNameAnn crt anns) anns with
  | error e1 =>
    simp only [hD, Except.error.injEq] at h
    obtain ⟨v, rfl⟩ := applyDurationAnn_error _ _ _ hD
    exact ⟨_, _, h.symm⟩
  | ok crt1 =>
    simp only [hD] at h
    cases hR : applyRenewBeforeAnn crt1 anns with
    | error e2 =>
      simp only [hR, Except.error.injEq] at h
      obtain ⟨v, rfl⟩ := applyRenewBeforeAnn_error _ _ _ hR
      exact ⟨_, _, h.symm⟩
    | ok crt2 =>
      simp only [hR] at h
      obtain ⟨v, rfl⟩ := applyUsagesAnn_error _ _ _ h
      exact ⟨_, _, rfl⟩

theorem buildCertificates_shim_error (getE : GetResult) (vs : VirtualServer)
    (n k g : String) (e : ShimErr)
    (h : buildCertificates getE vs n k g = .error (.shim e)) :
    ∃ key v, e = ShimErr.invalidAnn key v := by
  unfold buildCertificates at h
  cases getE with
  | ioError m => simp at h
  | notFound =>
    cases hd : desiredCert vs n k g with
    | ok crt => simp [hd] at h
    | error e1 =>
      simp only [hd, Except.error.injEq, SyncErr.shim.injEq] at h
      subst h
      exact translateAnnotations_some_error _ _ _ hd
  | found existingCrt =>
    cases hd : desiredCert vs n k g with
    | ok crt => simp [hd] at h
    | error e1 =>
      simp only [hd, Except.error.injEq, SyncErr.shim.injEq] at h
      subst h
      exact translateAnnotations_some_error _ _ _ hd

/-! Behavior of the sync pass in each failure regime. -/

theorem syncFnFor_issuer_error (defaults : IngressShimOptions) (store : Store)
    (vs : VirtualServer) (e : ShimErr)
    (hi : issuerForIngressLike defaults vs = .error e) :
    syncFnFor defaults store vs
      = { ops := [], events := [.warnBadConfig], result := none } := by
  unfold syncFnFor
  rw [hi]

theorem syncFnFor_build_error (defaults : IngressShimOptions) (store : Store)
    (vs : VirtualServer) (n k g : String) (e : SyncErr)
    (hi : issuerForIngressLike defaults vs = .ok (n, k, g))
    (hb : buildCertificates store.getCert vs n k g = .error e) :
    syncFnFor defaults store vs = { ops := [], events := [], result := some e } := by
  unfold syncFnFor
  simp only [hi]
  simp only [hb]

theorem syncFnFor_ok_result_store (defaults : IngressShimOptions) (store : Store)
    (vs : VirtualServer) (n k g : String) (newL updL : List Certificate)
    (hi : issuerForIngressLike defaults vs = .ok (n, k, g))
    (hb : buildCertificates store.getCert vs n k g = .ok (newL, updL)) :
    (syncFnFor defaults store vs).result = none
      ∨ ∃ m, (syncFnFor defaults store vs).result = some (.store m) := by
  unfold syncFnFor
  simp only [hi]
  simp only [hb]
  rcases hc : runCreates store newL with ⟨cops, cevs, cerr⟩
  cases cerr with
  | some m => exact Or.inr ⟨m, rfl⟩
  | none =>
    dsimp only
    rcases hu : runUpdates store updL with ⟨uops, uevs, uerr⟩
    cases uerr with
    | some m => exact Or.inr ⟨m, rfl⟩
    | none =>
      dsimp only
      cases hl : store.listRes with
      | error m => exact Or.inr ⟨m, rfl⟩
      | ok certs =>
        dsimp only
        rcases hd : runDeletes store (findCertificatesToBeRemoved certs vs)
          with ⟨dops, devs, derr⟩
        cases derr with
        | none => exact Or.inl rfl
        | some m => exact Or.inr ⟨m, rfl⟩

/-- Claim C7 (counterexample): for the VirtualServer whose cert-manager
config sets duration to the unparsable "bogus", annotation translation
fails, and — contrary to the claim that such a pass returns no error to
the caller — the sync function hands the InvalidAnnotation error back to
the caller. -/
theorem translation_failure_propagates_cex :
    desiredCert bogusDurationVs "letsencrypt" "ClusterIssuer" ""
        = .error (.invalidAnn cmDurationAnnKey "bogus")
      ∧ (syncFnFor exampleDefaults happyStore bogusDurationVs).result
          = some (.shim (.invalidAnn cmDurationAnnKey "bogus"))
      ∧ ¬ (syncFnFor exampleDefaults happyStore bogusDurationVs).result = none :=
  ⟨rfl, rfl, by decide⟩

/-- Claim C7 (amended): an issuer-resolution failure is swallowed — the
pass returns no error and performs no store write; an annotation
translation failure also skips every store write but, unlike the claim's
wording, propagates to the caller as an InvalidAnnotation error; any
error the pass returns is either such a translation error (with no store
writes performed) or a store I/O failure. -/
theorem sync_error_handling_amended (defaults : IngressShimOptions) (store : Store)
    (vs : VirtualServer) :
    ((∃ e, issuerForIngressLike defaults vs = .error e) →
        (syncFnFor defaults store vs).result = none
          ∧ (syncFnFor defaults store vs).ops = [])
      ∧ (∀ e, (syncFnFor defaults store vs).result = some (SyncErr.shim e) →
          (syncFnFor defaults store vs).ops = []
            ∧ ∃ key v, e = ShimErr.invalidAnn key v) := by
  constructor
  · rintro ⟨e, hi⟩
    rw [syncFnFor_issuer_error defaults store vs e hi]
    exact ⟨rfl, rfl⟩
  · intro e hres
    cases hi : issuerForIngressLike defaults vs with
    | error e0 =>
      rw [syncFnFor_issuer_error defaults store vs e0 hi] at hres
      simp at hres
    | ok triple =>
      obtain ⟨n, k, g⟩ := triple
      cases hb : buildCertificates store.getCert vs n k g with
      | error e1 =>
        have hsync := syncFnFor_build_error defaults store vs n k g e1 hi hb
        rw [hsync] at hres
        simp only [Option.some.injEq] at hres
        subst hres
        exact ⟨by rw [hsync], buildCertificates_shim_error store.getCert vs n k g e hb⟩
      | ok pair =>
        obtain ⟨newL, updL⟩ := pair
        rcases syncFnFor_ok_result_store defaults store vs n k g newL updL hi hb
          with hnone | ⟨m, hm⟩
        · rw [hnone] at hres; simp at hres
        · rw [hm] at hres; simp at hres

theorem sync_error_handling_amended_witness :
    (∃ e, issuerForIngressLike exampleDefaults conflictVs = .error e)
      ∧ ((syncFnFor exampleDefaults happyStore conflictVs).result = none
          ∧ (syncFnFor exampleDefaults happyStore conflictVs).ops = []) :=
  ⟨⟨.badConfig [msgBothSet cmIssuerAnnKey cmClusterIssuerAnnKey], rfl⟩,
    (sync_error_handling_amended exampleDefaults happyStore conflictVs).1
      ⟨.badConfig [msgBothSet cmIssuerAnnKey cmClusterIssuerAnnKey], rfl⟩⟩

end CertShim
